import Mathlib

/-!
# Verification of the oxutils permissions engine

Shallow embedding of `src/oxutils/permissions` (actions.py, utils.py,
models.py, caches.py) together with models of engine operations that the
repository's tests and callers reference but whose definitions are absent
from the shipped sources (`role_sync`, `revoke_group`, `parse_permission`);
those are modelled from the specification and marked as such.

Action codes are Python one-character strings; we embed them as `Char`.
Python `set`s of action codes are embedded as `Finset Char`; Python lists
(Django `ArrayField`) as `List Char`.
-/

namespace OxPerm

/-- From actions.py: `ACTION_HIERARCHY` — each action code maps to the set of
action codes it directly implies (`w⇒r`, `u⇒r`, `d⇒{r,w}`, `a⇒r`).  The
association list mirrors the Python dict, whose iteration order is its
insertion order r, w, u, d, a. -/
def ACTION_HIERARCHY : List (Char × List Char) :=
  [('r', []), ('w', ['r']), ('u', ['r']), ('d', ['r', 'w']), ('a', ['r'])]

/-- From actions.py: `VALID_ACTIONS = list(ACTION_HIERARCHY.keys())`. -/
def VALID_ACTIONS : List Char := ACTION_HIERARCHY.map Prod.fst

/-- The valid action codes as a `Finset`, for subset statements. -/
def validActionsF : Finset Char := {'r', 'w', 'u', 'd', 'a'}

/-- `ACTION_HIERARCHY.get(action, set())` from expand_actions: the directly
implied set of an action code, defaulting to empty for unknown codes. -/
def hierGet (c : Char) : Finset Char :=
  ((ACTION_HIERARCHY.lookup c).getD []).toFinset

/-- One round of the worklist loop in actions.py `expand_actions`: add every
directly implied action of every action already present. -/
def expandStep (s : Finset Char) : Finset Char :=
  s ∪ s.biUnion hierGet

/-- From actions.py: `expand_actions`, at the level of sets.  The Python
worklist loop computes the reflexive-transitive closure of the implication
graph over the input; since every implication chain in `ACTION_HIERARCHY`
has length at most 2 (`d ⇒ w ⇒ r`) and unknown codes imply nothing,
iterating `expandStep` five times reaches that closure from any input. -/
def expandF (s : Finset Char) : Finset Char :=
  expandStep^[5] s

/-- From actions.py: `expand_actions` on lists — `return sorted(expanded)`.
Python sorts one-character strings by code point, which is `Char`'s order. -/
def expand_actions (xs : List Char) : List Char :=
  (expandF xs.toFinset).sort (· ≤ ·)

/-- The loop body of actions.py `collapse_actions`, with the call
`roots.discard(next(iter(implied & actions)))` modelled nondeterministically:
`next(iter(...))` returns an arbitrary element of the intersection (CPython
set iteration order depends on randomized string hashes), so at each
hierarchy entry whose guard fires we branch over every element of
`implied & actions` as the discarded one.  The result is the list of all
root sets the Python function can return. -/
def collapseStates : List (Char × List Char) → Finset Char → Finset Char → List (Finset Char)
  | [], _, roots => [roots]
  | (act, implied) :: rest, actions, roots =>
    let inter := implied.filter (fun c => c ∈ actions)
    if act ∈ roots ∧ inter ≠ [] then
      (inter.map (fun y => collapseStates rest actions (roots.erase y))).flatten
    else
      collapseStates rest actions roots

/-- From actions.py: `collapse_actions`, as the list of results every possible
execution can produce (see `collapseStates`).  `actions = set(actions)` and
`roots = set(actions)` both start as the input set; the loop iterates over
`ACTION_HIERARCHY` in insertion order. -/
def collapse_nd (actions : Finset Char) : List (Finset Char) :=
  collapseStates ACTION_HIERARCHY actions actions

/-- A scalar JSON value as stored in a Grant's `context` JSONField and as
produced by the permission-string query parser: a string, a number, or JSON
null (Python `None`). -/
inductive CtxVal where
  | str (s : String)
  | num (n : Int)
  | null
deriving DecidableEq

/-- From models.py: the `Grant` model.  `id` is the Django surrogate primary
key; `user` and `created_by` are user primary keys; `role` is the slug of the
referenced Role (`none` after an override makes the grant custom);
`user_group` is the id of the originating UserGroup (nullable);
`actions` is the ArrayField of action codes, viewed as a set (every writer
stores the sorted, duplicate-free expansion); `context` is the JSONField map.
The `updated_at`/`created_at` timestamp columns are not modelled. -/
structure Grant where
  id : Nat
  user : Nat
  scope : String
  role : Option String
  locked : Bool
  userGroup : Option Nat
  createdBy : Option Nat
  actions : Finset Char
  context : List (String × CtxVal)
deriving DecidableEq

/-- From models.py: the `RoleGrant` template model, keyed (role slug, scope),
with its raw action set and context template. -/
structure RoleGrantT where
  role : String
  scope : String
  actions : Finset Char
  context : List (String × CtxVal)
deriving DecidableEq

/-- From models.py: the `UserGroup` join record (principal, group slug). -/
structure UserGroupRec where
  id : Nat
  user : Nat
  group : String
deriving DecidableEq

/-- Django `Q(context__contains=ctx)` — PostgreSQL JSONB containment on a flat
map: every supplied key is present in the grant's context with an equal
value. -/
def ctx_contains (gctx : List (String × CtxVal)) (flt : List (String × CtxVal)) : Bool :=
  flt.all (fun kv => gctx.lookup kv.1 == some kv.2)

/-- From utils.py: `check(user, scope, required, **context)`.  Builds a filter
`user__pk ∧ scope ∧ actions__contains=required` and, only when the collected
keyword context is non-empty, adds `context__contains=context`; returns
whether some Grant matches.  `actions__contains` is PostgreSQL array
containment: every required code occurs in the grant's action array. -/
def check (store : List Grant) (userPk : Nat) (scope : String)
    (required : List Char) (context : List (String × CtxVal)) : Bool :=
  store.any (fun g =>
    g.user == userPk && g.scope == scope &&
    required.all (fun a => decide (a ∈ g.actions)) &&
    (context.isEmpty || ctx_contains g.context context))

/-- The keyword-argument dictionary that `cache_check(user, scope, actions,
role=None, **context)` passes on: since utils.py `check` has no `role`
parameter, the `role=role` keyword is absorbed into `**context` as the entry
`"role" ↦ role` (JSON null when `role is None`). -/
def roleToCtx : Option String → CtxVal
  | none => CtxVal.null
  | some s => CtxVal.str s

/-- From caches.py (CACHE_CHECK_PERMISSION disabled branch):
`cache_check(user, scope, actions, role=None, **context)` calls
`check(user, scope, actions, role=role, **context)`; the `role` keyword lands
in `check`'s `**context`. -/
def cache_check (store : List Grant) (userPk : Nat) (scope : String)
    (acts : List Char) (role : Option String)
    (context : List (String × CtxVal)) : Bool :=
  check store userPk scope acts (("role", roleToCtx role) :: context)

/-- One branch of utils.py `override_grant` after the Grant `g0` was found and
its current actions collapsed to a candidate root set `roots`: expand the
actions to remove, subtract them from the roots, delete the grant row when
nothing remains, otherwise store the re-expanded remainder and clear the role
reference (`update_fields=["actions", "role", "updated_at"]` — `locked` is
not among the written fields). -/
def overrideApply (store : List Grant) (g0 : Grant) (removeActions : List Char)
    (roots : Finset Char) : List Grant :=
  let rootActions := roots \ expandF removeActions.toFinset
  if rootActions = ∅ then
    store.filter (fun h => h.id != g0.id)
  else
    store.map (fun h =>
      if h.id == g0.id then
        { h with actions := expandF rootActions, role := none }
      else h)

/-- From utils.py: `override_grant(user, scope, remove_actions)`.  Looks up
the first Grant for (user pk, scope) — role and group are not part of the
lookup — and returns silently when none exists.  Because `collapse_actions`
is nondeterministic (see `collapseStates`), the result is the list of all
grant stores a run of the Python function can leave behind. -/
def override_grant_outcomes (store : List Grant) (userPk : Nat) (scope : String)
    (removeActions : List Char) : List (List Grant) :=
  match store.find? (fun g => g.user == userPk && g.scope == scope) with
  | none => [store]
  | some g0 => (collapse_nd g0.actions).map (overrideApply store g0 removeActions)

/-- Whether a Grant is a sync candidate for `role_sync(role_slug, scope?)`:
unlocked, not group-originated, referencing the role, and within the optional
scope filter (spec §4.6). -/
def roleSyncCandidate (slug : String) (scopeF : Option String) (g : Grant) : Bool :=
  g.role == some slug && g.locked == false && g.userGroup == none &&
    (match scopeF with
     | none => true
     | some s => g.scope == s)

/-- The recomputed action set of a Grant under `role_sync`: the expansion of
the current RoleGrant template for (role, grant scope); grants whose scope has
no template keep their actions (spec §4.6). -/
def roleSyncNewActions (rgs : List RoleGrantT) (slug : String) (g : Grant) : Finset Char :=
  match rgs.find? (fun rg => rg.role == slug && rg.scope == g.scope) with
  | some rg => expandF rg.actions
  | none => g.actions

/-- Modelled from the spec: `role_sync(role_slug, scope?)` is referenced by
tests/permissions/test_role_sync.py but its definition is absent from the
shipped sources.  Per §4.6 it fails `RoleNotFoundError` for an unknown role
slug, finds all unlocked, group-origin-less Grants referencing the role
(optionally restricted to one scope), recomputes each one's actions from the
current RoleGrant template, and reports the number of grants updated; it is
idempotent, so a grant whose actions already match the template is not
counted as updated. -/
def role_sync (roles : List String) (rgs : List RoleGrantT) (store : List Grant)
    (slug : String) (scopeF : Option String) :
    Except String (List Grant × Nat) :=
  if roles.contains slug then
    let store' := store.map (fun g =>
      if roleSyncCandidate slug scopeF g && roleSyncNewActions rgs slug g != g.actions then
        { g with actions := roleSyncNewActions rgs slug g }
      else g)
    Except.ok (store', store.countP (fun g =>
      roleSyncCandidate slug scopeF g && roleSyncNewActions rgs slug g != g.actions))
  else
    Except.error "RoleNotFoundError"

/-- From models.py: `Grant.user_group` is declared with
`on_delete=models.SET_NULL`, so deleting a UserGroup does not delete the
Grants that originated from it — their `user_group` reference is set to
null and the rows survive. -/
def deleteUserGroupOnGrants (grants : List Grant) (ugId : Nat) : List Grant :=
  grants.map (fun g =>
    if g.userGroup == some ugId then { g with userGroup := none } else g)

/-- Modelled from the spec: `revoke_group(principal, group_slug)` is
referenced by tests and by the controller layer but its definition is absent
from the shipped sources.  Per §4.4 it deletes the principal's UserGroup for
that group; the effect of that deletion on the materialized Grants is not
taken from the spec but from models.py, whose `Grant.user_group` foreign key
is `on_delete=SET_NULL` (see `deleteUserGroupOnGrants`). -/
def revoke_group (ugs : List UserGroupRec) (grants : List Grant)
    (userPk : Nat) (groupSlug : String) : List UserGroupRec × List Grant :=
  match ugs.find? (fun ug => ug.user == userPk && ug.group == groupSlug) with
  | none => (ugs, grants)
  | some ug => (ugs.filter (fun u => u.id != ug.id), deleteUserGroupOnGrants grants ug.id)

/-- Split a character list at every occurrence of `sep`; the textual
permission grammar is character-based, so the parser works on `List Char`. -/
def splitOnChar (sep : Char) : List Char → List (List Char)
  | [] => [[]]
  | c :: cs =>
    match splitOnChar sep cs with
    | [] => [[c]]
    | h :: t => if c = sep then [] :: h :: t else (c :: h) :: t

/-- The numeric value of a run of decimal digits. -/
def digitsToNat (cs : List Char) : Nat :=
  cs.foldl (fun n c => 10 * n + (c.toNat - '0'.toNat)) 0

/-- A query-string value, parsed into the flat string/number map of the
permission grammar: a non-empty all-digit run is a number, anything else is a
string (spec §4.7). -/
def parseQueryValue (cs : List Char) : CtxVal :=
  if cs ≠ [] ∧ cs.all (fun c => c.isDigit) then
    CtxVal.num (digitsToNat cs)
  else
    CtxVal.str (String.mk cs)

/-- Parse `key=value&key=value...`; a clause without exactly one `=` is
malformed. -/
def parseQuery (cs : List Char) : Except String (List (String × CtxVal)) :=
  (splitOnChar '&' cs).mapM (fun clause =>
    match splitOnChar '=' clause with
    | [k, v] => Except.ok (String.mk k, parseQueryValue v)
    | _ => Except.error "MalformedPermissionError")

/-- Modelled from the spec: `parse_permission(expr)` is referenced by
perms.py and the tests but its definition is absent from the shipped
sources.  Per §4.7/§6 the grammar is `scope ":" actions [":" role]
["?" query]`, where `actions` is a run of one-letter action codes, each an
independent code, and the query string is a `key=value&...` map; a missing
scope or actions segment fails `MalformedPermissionError`. -/
def parse_permission (expr : String) :
    Except String (String × List Char × Option String × List (String × CtxVal)) :=
  let (mainPart, queryPart) :=
    match splitOnChar '?' expr.toList with
    | m :: q :: _ => (m, some q)
    | m :: _ => (m, (none : Option (List Char)))
    | [] => (([] : List Char), none)
  match (match queryPart with
         | none => Except.ok []
         | some q => parseQuery q) with
  | Except.error e => Except.error e
  | Except.ok ctx =>
    match splitOnChar ':' mainPart with
    | [scope, acts] =>
      if scope ≠ [] ∧ acts ≠ [] then
        Except.ok (String.mk scope, acts, none, ctx)
      else Except.error "MalformedPermissionError"
    | [scope, acts, role] =>
      if scope ≠ [] ∧ acts ≠ [] then
        Except.ok (String.mk scope, acts, some (String.mk role), ctx)
      else Except.error "MalformedPermissionError"
    | _ => Except.error "MalformedPermissionError"

/-- Equality of `Except` results is decidable when both components' are. -/
instance {ε α : Type} [DecidableEq ε] [DecidableEq α] : DecidableEq (Except ε α) :=
  fun a b =>
    match a, b with
    | Except.ok x, Except.ok y =>
      if h : x = y then Decidable.isTrue (by rw [h]) else
        Decidable.isFalse (by intro hx; exact h (Except.ok.inj hx))
    | Except.error x, Except.error y =>
      if h : x = y then Decidable.isTrue (by rw [h]) else
        Decidable.isFalse (by intro hx; exact h (Except.error.inj hx))
    | Except.ok _, Except.error _ => Decidable.isFalse (by intro hx; cases hx)
    | Except.error _, Except.ok _ => Decidable.isFalse (by intro hx; cases hx)

/-! ## Concrete instances used by the theorems

The scenario of the spec's override example: a Grant materialized from the
`editor` role on scope `articles` with the closed action set `{r, w}`. -/

/-- The Grant produced by `assign_role(P, "editor")` from
RoleGrant(editor, articles, expand({w}) = {r, w}). -/
def editorArticlesGrant : Grant :=
  { id := 1, user := 1, scope := "articles", role := some "editor", locked := false,
    userGroup := none, createdBy := none, actions := {'r', 'w'}, context := [] }

/-- A Grant of the same principal on an unrelated scope. -/
def postsScopeGrant : Grant :=
  { id := 3, user := 1, scope := "posts", role := some "editor", locked := false,
    userGroup := none, createdBy := none, actions := {'r'}, context := [] }

/-- A Grant holding the full delete closure `{r, w, d}`. -/
def richGrant : Grant :=
  { id := 4, user := 1, scope := "files", role := some "editor", locked := false,
    userGroup := some 9, createdBy := some 5, actions := {'r', 'w', 'd'},
    context := [("tenant_id", CtxVal.num 123)] }

/-- `richGrant` after `override_grant(P, "files", remove=["u"])`: the root
set loses nothing it keeps (`u` and its closure `{r, u}` only shave the root
`r`), so the grant is re-expanded and its role reference is cleared. -/
def richGrantOverridden : Grant :=
  { richGrant with actions := expandF ({'w', 'd'} \ expandF {'u'}), role := none }

/-- The `editor` RoleGrant template after the maintainer widened its actions
to `{r, w, d}` (the sync scenario of the spec). -/
def editorTemplate : RoleGrantT :=
  { role := "editor", scope := "articles", actions := {'r', 'w', 'd'}, context := [] }

/-- A Grant of principal 1 that was overridden: locked, custom actions. -/
def lockedOverriddenGrant : Grant :=
  { id := 1, user := 1, scope := "articles", role := some "editor", locked := true,
    userGroup := none, createdBy := none, actions := {'r'}, context := [] }

/-- An unlocked editor Grant of a different principal on the same scope. -/
def otherUserGrant : Grant :=
  { id := 2, user := 2, scope := "articles", role := some "editor", locked := false,
    userGroup := none, createdBy := none, actions := {'r', 'w'}, context := [] }

/-- `otherUserGrant` after `role_sync("editor")` rematerializes it from the
widened template. -/
def otherUserSynced : Grant :=
  { otherUserGrant with actions := expandF {'r', 'w', 'd'} }

/-- The UserGroup record created by `assign_group(P, "staff")`. -/
def staffUserGroup : UserGroupRec :=
  { id := 7, user := 1, group := "staff" }

/-- A group-originated Grant that was later locked via override. -/
def lockedGroupGrant : Grant :=
  { id := 11, user := 1, scope := "articles", role := none, locked := true,
    userGroup := some 7, createdBy := none, actions := {'r'}, context := [] }

/-- A group-originated Grant still tracking its template. -/
def unlockedGroupGrant : Grant :=
  { id := 12, user := 1, scope := "reports", role := some "viewer", locked := false,
    userGroup := some 7, createdBy := none, actions := {'r'}, context := [] }

/-! ## Theorems -/

/-- C1: starting from the Grant materialized from editor with actions
`{r, w}`, `override_grant(P, "articles", remove=["w"])` does NOT leave a
locked Grant with actions `{r}` — every possible execution of the source
deletes the Grant: `collapse({r,w}) = {w}`, `expand({w}) = {r,w}`, and the
subtraction leaves the empty remainder, which is the deletion branch.  (The
second half of the claim, empty remainder ⇒ deletion, is exactly what fires
here; the source also never writes `locked = true` — its
`save(update_fields=...)` lists only `actions`, `role` and `updated_at` —
contradicting the Grant model's own docstring and
`test_override_grant_removes_actions`.) -/
theorem override_rw_remove_w_deletes_grant :
    override_grant_outcomes [editorArticlesGrant] 1 "articles" ['w'] = [[]] := by
  decide

/-- C3: the hierarchy examples, against every execution the source admits:
`expand({w}) = {r,w}` and `expand({d}) = {r,w,d}` hold; `collapse({r,u}) =
{u}` holds; but `collapse({r,w,d})` has TWO possible results, `{w,d}` and
`{d}`, because at the `d` entry the code discards only
`next(iter({r,w} & actions))` — a single, hash-order-dependent element — so
the claimed `collapse({r,w,d}) == {d}` fails on executions where that
element is `r` (already absent from the roots), leaving `{w,d}`. -/
theorem action_hierarchy_examples_nondeterministic_collapse :
    expandF {'w'} = {'r', 'w'} ∧ expandF {'d'} = {'r', 'w', 'd'} ∧
    collapse_nd {'r', 'u'} = [{'u'}] ∧
    collapse_nd {'r', 'w', 'd'} = [{'w', 'd'}, {'d'}] := by
  decide

/-- C5: the source `check` has no `role` parameter, so the `role=...` keyword
(as passed by `cache_check` and by the tests) is absorbed into `**context`
and filtered as a context key: for a Grant whose role slug IS `editor`, whose
actions contain the required `r`, and whose context is empty, the role-
qualified check returns `false`, although the plain check returns `true` —
contradicting the claimed role-slug matching (and
`test_check_with_role_filter`). -/
theorem check_role_kwarg_becomes_context_filter :
    check [editorArticlesGrant] 1 "articles" ['r'] [("role", CtxVal.str "editor")] = false ∧
    cache_check [editorArticlesGrant] 1 "articles" ['r'] (some "editor") [] = false ∧
    editorArticlesGrant.role = some "editor" ∧
    check [editorArticlesGrant] 1 "articles" ['r'] [] = true := by
  decide

/-- C7: when no Grant exists for (principal, scope) — here the only Grant is
on scope `posts`, not `articles` — `override_grant` returns silently with
the store untouched instead of failing with `GrantNotFoundError`
(`if not grant: return`), contradicting `test_override_grant_not_found`. -/
theorem override_missing_grant_silent :
    override_grant_outcomes [postsScopeGrant] 1 "articles" ['w'] = [[postsScopeGrant]] := by
  decide

/-- C9: the grammar round-trip — `parse_permission("articles:rw?tenant_id=123")`
yields scope `articles`, the two independent action codes `r` and `w`, no
role, and the context `{tenant_id: 123}` with a numeric value; the
actions-less `parse_permission("articles")` is malformed. -/
theorem parse_permission_round_trip :
    parse_permission "articles:rw?tenant_id=123" =
      Except.ok ("articles", ['r', 'w'], none, [("tenant_id", CtxVal.num 123)]) ∧
    parse_permission "articles" = Except.error "MalformedPermissionError" := by
  exact ⟨rfl, rfl⟩

/-- C6 counterexample: after `assign_group(P, "staff")` materialized two
grants traced to UserGroup 7 (one of them locked via override),
`revoke_group(P, "staff")` deletes the UserGroup record but does NOT delete
the grants: `Grant.user_group` is declared `on_delete=SET_NULL`, so both
rows survive with their group-origin cleared — the claimed cascade deletion
of all N grants is false. -/
theorem revoke_group_grants_survive_cx :
    revoke_group [staffUserGroup] [lockedGroupGrant, unlockedGroupGrant] 1 "staff" =
      ([], [{ lockedGroupGrant with userGroup := none },
            { unlockedGroupGrant with userGroup := none }]) ∧
    ((revoke_group [staffUserGroup] [lockedGroupGrant, unlockedGroupGrant] 1 "staff").2).length = 2 := by
  decide

/-- C6 (amended): `revoke_group` removes the UserGroup record, but the
Grants that originated from it are never deleted — each grant of the store
survives in place, either untouched or with only its `user_group` reference
cleared to null, regardless of its lock state, because `Grant.user_group` is
`on_delete=SET_NULL`. -/
theorem revoke_group_set_null_semantics :
    ∀ (ugs : List UserGroupRec) (grants : List Grant) (userPk : Nat) (slug : String),
      List.Forall₂ (fun g g' => g' = g ∨ g' = { g with userGroup := none })
        grants (revoke_group ugs grants userPk slug).2 := by
  intro ugs grants userPk slug
  unfold revoke_group
  cases hfind : ugs.find? (fun ug => ug.user == userPk && ug.group == slug) with
  | none =>
      exact List.forall₂_same.mpr (fun g _ => Or.inl rfl)
  | some ug =>
      simp only [deleteUserGroupOnGrants]
      rw [List.forall₂_map_right_iff]
      refine List.forall₂_same.mpr (fun g _ => ?_)
      by_cases h : (g.userGroup == some ug.id) = true
      · simp [h]
      · simp [h]

/-- C4 at the finitely many relevant inputs: all non-empty subsets of the
valid alphabet, by evaluation. -/
lemma expand_collapse_bounded :
    ∀ x ∈ validActionsF.powerset, x.Nonempty →
      (expandF (expandF x) = expandF x ∧ ∀ r ∈ collapse_nd x, expandF r = expandF x) := by
  decide

/-- C4: for every non-empty set of known action codes, `expand` is idempotent
and `expand ∘ collapse` preserves the closure — the latter for EVERY root set
a run of the nondeterministic `collapse_actions` can return. -/
theorem expand_collapse_idempotent :
    ∀ x : Finset Char, x ⊆ validActionsF → x.Nonempty →
      expandF (expandF x) = expandF x ∧ ∀ r ∈ collapse_nd x, expandF r = expandF x :=
  fun x hsub hne => expand_collapse_bounded x (Finset.mem_powerset.mpr hsub) hne

/-- C4 witness: the closure laws instantiated at the concrete set `{d}`. -/
theorem expand_collapse_idempotent_witness :
    (({'d'} : Finset Char) ⊆ validActionsF ∧ ({'d'} : Finset Char).Nonempty) ∧
    (expandF (expandF {'d'}) = expandF {'d'} ∧
      ∀ r ∈ collapse_nd {'d'}, expandF r = expandF {'d'}) :=
  ⟨⟨by decide, by decide⟩, expand_collapse_idempotent {'d'} (by decide) (by decide)⟩

/-- C8 counterexample: the code outside the `{r,w,u,d,a}` alphabet — `x` —
does NOT make expand or collapse fail; both return normally with `x` kept in
the result, alone or mixed with known codes. -/
theorem expand_unknown_code_no_error_cx :
    expandF {'x'} = {'x'} ∧ collapse_nd {'x'} = [{'x'}] ∧
    expandF {'d', 'x'} = {'r', 'w', 'd', 'x'} := by
  decide

/-- C8 (amended): the Action Lattice performs no input validation at all —
an action code outside the alphabet is silently passed through: `expand`
keeps it in the output (`ACTION_HIERARCHY.get(action, set())` defaults to
empty) and `collapse` leaves it in the root set; `InvalidActionError` is
never raised and the component raises no errors. -/
theorem unknown_codes_pass_through :
    ∀ c : Char, c ∉ validActionsF →
      expandF {c} = {c} ∧ collapse_nd {c} = [{c}] := by
  intro c hc
  simp only [validActionsF, Finset.mem_insert, Finset.mem_singleton, not_or] at hc
  obtain ⟨hr, hw, hu, hd, ha⟩ := hc
  have hget : hierGet c = ∅ := by
    simp [hierGet, ACTION_HIERARCHY, List.lookup,
      beq_eq_false_iff_ne.mpr hr, beq_eq_false_iff_ne.mpr hw,
      beq_eq_false_iff_ne.mpr hu, beq_eq_false_iff_ne.mpr hd,
      beq_eq_false_iff_ne.mpr ha]
  constructor
  · have hstep : expandStep {c} = {c} := by
      simp [expandStep, Finset.singleton_biUnion, hget]
    simpa [expandF] using Function.iterate_fixed hstep 5
  · simp [collapse_nd, collapseStates, ACTION_HIERARCHY, Finset.mem_singleton,
      Ne.symm hr, Ne.symm hw, Ne.symm hu, Ne.symm hd, Ne.symm ha]

/-- C8 witness: the unknown code `x` passes through both operations. -/
theorem unknown_codes_pass_through_witness :
    ('x' ∉ validActionsF) ∧ (expandF {'x'} = {'x'} ∧ collapse_nd {'x'} = [{'x'}]) :=
  ⟨by decide, unknown_codes_pass_through 'x' (by decide)⟩

/-- C10: whenever `override_grant` keeps a Grant, only its `actions` and
`role` (and the unmodelled `updated_at`) change: every Grant in every
possible resulting store corresponds to a Grant of the original store with
the same id, user, scope, context map, lock flag, group origin and
provenance. -/
theorem override_grant_frame :
    ∀ (store : List Grant) (userPk : Nat) (scope : String) (removeActions : List Char)
      (out : List Grant) (g' : Grant),
      out ∈ override_grant_outcomes store userPk scope removeActions →
      g' ∈ out →
      ∃ g ∈ store, g'.id = g.id ∧ g'.user = g.user ∧ g'.scope = g.scope ∧
        g'.context = g.context ∧ g'.locked = g.locked ∧
        g'.userGroup = g.userGroup ∧ g'.createdBy = g.createdBy := by
  intro store userPk scope removeActions out g' hout hg
  unfold override_grant_outcomes at hout
  cases hfind : store.find? (fun g => g.user == userPk && g.scope == scope) with
  | none =>
      rw [hfind] at hout
      simp only [List.mem_singleton] at hout
      subst hout
      exact ⟨g', hg, rfl, rfl, rfl, rfl, rfl, rfl, rfl⟩
  | some g0 =>
      rw [hfind] at hout
      simp only [List.mem_map] at hout
      obtain ⟨roots, -, rfl⟩ := hout
      simp only [overrideApply] at hg
      by_cases hemp : roots \ expandF removeActions.toFinset = ∅
      · rw [if_pos hemp] at hg
        exact ⟨g', (List.mem_filter.mp hg).1, rfl, rfl, rfl, rfl, rfl, rfl, rfl⟩
      · rw [if_neg hemp] at hg
        simp only [List.mem_map] at hg
        obtain ⟨g, hgmem, rfl⟩ := hg
        by_cases hid : (g.id == g0.id) = true
        · refine ⟨g, hgmem, ?_⟩
          simp [hid]
        · refine ⟨g, hgmem, ?_⟩
          simp [hid]

/-- C10 witness: overriding `richGrant` by removing `u` keeps the grant;
the survivor differs from the original only in actions and role. -/
theorem override_grant_frame_witness :
    ([richGrantOverridden] ∈ override_grant_outcomes [richGrant] 1 "files" ['u']) ∧
    (richGrantOverridden ∈ [richGrantOverridden]) ∧
    ∃ g ∈ [richGrant], richGrantOverridden.id = g.id ∧
      richGrantOverridden.user = g.user ∧ richGrantOverridden.scope = g.scope ∧
      richGrantOverridden.context = g.context ∧ richGrantOverridden.locked = g.locked ∧
      richGrantOverridden.userGroup = g.userGroup ∧
      richGrantOverridden.createdBy = g.createdBy :=
  ⟨by decide, by decide,
    override_grant_frame [richGrant] 1 "files" ['u'] [richGrantOverridden]
      richGrantOverridden (by decide) (by decide)⟩

/-- C2: the Sync Engine never rewrites a locked Grant — for every template
and grant store, the locked grants of the store come out of `role_sync`
exactly as they went in; and in the concrete scenario (principal 1's grant
overridden and locked, the editor template widened to `{r,w,d}`), the run
reports a single update, which is the unlocked grant of the other principal,
while the locked grant's action set is unchanged. -/
theorem role_sync_skips_locked_grants :
    (∀ (roles : List String) (rgs : List RoleGrantT) (store : List Grant)
       (slug : String) (scopeF : Option String) (out : List Grant × Nat),
       role_sync roles rgs store slug scopeF = Except.ok out →
       out.1.filter (fun g => g.locked) = store.filter (fun g => g.locked)) ∧
    role_sync ["editor"] [editorTemplate] [lockedOverriddenGrant, otherUserGrant] "editor" none
      = Except.ok ([lockedOverriddenGrant, otherUserSynced], 1) := by
  constructor
  · intro roles rgs store slug scopeF out h
    unfold role_sync at h
    split at h
    · simp only [Except.ok.injEq] at h
      subst h
      simp only
      induction store with
      | nil => rfl
      | cons g t ih =>
        simp only [List.map_cons, List.filter_cons]
        cases hb : g.locked with
        | true =>
          have hcand : roleSyncCandidate slug scopeF g = false := by
            simp [roleSyncCandidate, hb]
          simp only [hcand, Bool.false_and, if_neg Bool.false_ne_true]
          simp only [hb, if_pos rfl]
          rw [ih]
        | false =>
          by_cases hcnd :
              (roleSyncCandidate slug scopeF g &&
                roleSyncNewActions rgs slug g != g.actions) = true
          · simp only [hcnd, if_pos rfl]
            simp only [hb, if_neg Bool.false_ne_true]
            exact ih
          · simp only [Bool.not_eq_true] at hcnd
            simp only [hcnd, if_neg Bool.false_ne_true]
            simp only [hb, if_neg Bool.false_ne_true]
            exact ih
    · exact absurd h (by simp)
  · decide

/-- C2 witness: the locked-grant preservation applied to the concrete sync
scenario. -/
theorem role_sync_skips_locked_grants_witness :
    ([lockedOverriddenGrant, otherUserSynced] : List Grant).filter (fun g => g.locked) =
      ([lockedOverriddenGrant, otherUserGrant] : List Grant).filter (fun g => g.locked) :=
  role_sync_skips_locked_grants.1 ["editor"] [editorTemplate]
    [lockedOverriddenGrant, otherUserGrant] "editor" none
    ([lockedOverriddenGrant, otherUserSynced], 1) (by decide)

end OxPerm
